import Mathlib

/-!
Verification development for the Directus policy/permission simulator
endpoint extension.  The definitions below are a shallow embedding of the
TypeScript source (the endpoint module): JavaScript objects become Lean
structures, JS truthiness on optional strings is made explicit, and the
stateful request handler becomes a pure function parameterised by the
database lookup and by the query-execution delegate (modelled as an
oracle indexed by the call number).
-/

namespace Sim

/-- A JSON-ish scalar value stored in a result row. Only null-ness and
equality of values matter to the code under verification. -/
inductive JVal where
  | jnull
  | jnum (n : Int)
  | jstr (s : String)
  | jbool (b : Bool)
deriving DecidableEq, Repr

/-- One item returned by the delegate: either a JS object (association
list of keys to values, in insertion order) or a non-object value. -/
inductive Row where
  | obj (entries : List (String × JVal))
  | nonobj
deriving DecidableEq, Repr

/-- A field-level discrepancy hint (see buildHints in the source). -/
structure Hint where
  field : String
  type : String
  note : String
deriving DecidableEq, Repr

def noRowNote : String :=
  "Field not returned for simulated context (may be restricted by permissions or query)."

def missingNote : String :=
  "Missing in simulated response (often indicates field/relational access restriction)."

def nullNote : String :=
  "Returned as null in simulated response while requester sees a value (often indicates field-level restriction)."

/-- JS property lookup on an object literal (first binding wins; object
literals in the source never carry duplicate keys). -/
def lookupEntry (k : String) : List (String × JVal) → Option JVal
  | [] => none
  | (k2, v) :: rest => if k2 = k then some v else lookupEntry k rest

/-- The main loop of buildHints: iterate the requester row keys in order
against the simulated row. -/
def hintsAgainst (sim : List (String × JVal)) : List (String × JVal) → List Hint
  | [] => []
  | (k, v) :: rest =>
    match lookupEntry k sim with
    | none => ⟨k, "missing", missingNote⟩ :: hintsAgainst sim rest
    | some sv =>
      if sv = JVal.jnull ∧ v ≠ JVal.jnull then
        ⟨k, "null", nullNote⟩ :: hintsAgainst sim rest
      else hintsAgainst sim rest

/-- buildHints from the source. The arguments are the first requester
item and the first simulated item (null when the result set is empty). -/
def buildHints : Option Row → Option Row → List Hint
  | none, _ => []
  | some Row.nonobj, _ => []
  | some (Row.obj req), none => req.map (fun kv => ⟨kv.1, "missing", noRowNote⟩)
  | some (Row.obj req), some Row.nonobj => req.map (fun kv => ⟨kv.1, "missing", noRowNote⟩)
  | some (Row.obj req), some (Row.obj sim) => hintsAgainst sim req

/-- getFirstItem from the source. -/
def getFirstItem (items : List Row) : Option Row := items.head?

/-- A Directus items query: the one key the engine inspects (fields,
absent or not an array is modelled as none) plus the opaque passthrough
properties the engine never touches. -/
structure Query where
  fields : Option (List String)
  rest : List (String × JVal)
deriving DecidableEq, Repr

structure StripResult where
  nextQuery : Query
  removedFields : List String
  removedWildcard : Bool
deriving DecidableEq, Repr

/-- The removal loop of stripFieldsFromQuery: for each forbidden field in
order, filter it out of the field list and record it when the list
actually shrank. Returns (final field list, removed fields in order). -/
def removeForbidden : List String → List String → List String × List String
  | fields, [] => (fields, [])
  | fields, fb :: rest =>
    let nf := fields.filter (fun f => f ≠ fb)
    let p := removeForbidden nf rest
    if nf.length ≠ fields.length then (p.1, fb :: p.2) else (p.1, p.2)

/-- stripFieldsFromQuery from the source. -/
def stripFieldsFromQuery (query : Query) (forbiddenFields : List String) : StripResult :=
  match query.fields with
  | none => ⟨query, [], false⟩
  | some originalFields =>
    if forbiddenFields = [] then ⟨query, [], false⟩
    else if "*" ∈ originalFields then
      let withoutWildcard := originalFields.filter (fun f => f ≠ "*")
      if withoutWildcard = [] then ⟨query, [], false⟩
      else
        let p := removeForbidden withoutWildcard forbiddenFields
        ⟨{ query with fields := some p.1 }, p.2, true⟩
    else
      let p := removeForbidden originalFields forbiddenFields
      if p.2 = [] then ⟨query, [], false⟩
      else ⟨{ query with fields := some p.1 }, p.2, false⟩

/-- The Directus accountability object, restricted to the keys the
extension reads or writes. roles = none models a value that is not an
array (Array.isArray false). -/
structure Accountability where
  user : Option String
  role : Option String
  admin : Bool
  app : Bool
  roles : Option (List String)
deriving DecidableEq, Repr

/-- The overrides argument of buildSimulatedAccountability: an outer
none means the key is absent from the overrides object. -/
structure Overrides where
  user : Option (Option String)
  role : Option (Option String)
  admin : Option Bool
  app : Option Bool
deriving DecidableEq, Repr

/-- JS truthiness of a string-or-null value: truthy iff a non-empty string. -/
def truthyStr : Option String → Bool
  | none => false
  | some s => !(s == "")

/-- The key-by-key override application at the top of
buildSimulatedAccountability. -/
def applyOverrides (base : Accountability) (o : Overrides) : Accountability :=
  let n1 := match o.user with | some u => { base with user := u } | none => base
  let n2 := match o.role with | some r => { n1 with role := r } | none => n1
  let n3 := match o.admin with | some a => { n2 with admin := a } | none => n2
  match o.app with | some a => { n3 with app := a } | none => n3

/-- else-branch of the roles fixup: keep roles when it is already an
array, otherwise set it to the empty array. -/
def padRoles (n : Accountability) : Accountability :=
  match n.roles with
  | some _ => n
  | none => { n with roles := some [] }

/-- The roles fixup at the bottom of buildSimulatedAccountability:
if (next.role) next.roles = [next.role]; else if (!Array.isArray(next.roles)) next.roles = []. -/
def fixRoles (n : Accountability) : Accountability :=
  match n.role with
  | some r => if r = "" then padRoles n else { n with roles := some [r] }
  | none => padRoles n

/-- buildSimulatedAccountability from the source. -/
def buildSimulatedAccountability (base : Accountability) (o : Overrides) : Accountability :=
  fixRoles (applyOverrides base o)

/-!
Forbidden-field extractor.  The source matches two fixed regular
expressions against the error reason.  Both patterns are rigid enough
that greedy matching with backtracking collapses to the deterministic
parsers below; the star over quoted-comma groups keeps its backtracking
(quotedTokens tries the longer parse first and falls back to treating
the current quoted token as the final one).
-/

/-- The JS regex whitespace class (the \s escape). -/
def isJsSpace (c : Char) : Bool :=
  c = ' ' || c = '\t' || c = '\n' || c = '\r' || c = '\x0b' || c = '\x0c' ||
  c = '\u00a0' || c = '\u1680' || ('\u2000' ≤ c && c ≤ '\u200a') ||
  c = '\u2028' || c = '\u2029' || c = '\u202f' || c = '\u205f' || c = '\u3000' ||
  c = '\ufeff'

/-- Consume a case-insensitive literal (pattern given in lowercase). -/
def litCI : List Char → List Char → Option (List Char)
  | [], s => some s
  | _ :: _, [] => none
  | p :: ps, c :: cs => if c.toLower = p then litCI ps cs else none

/-- Consume one-or-more whitespace (the regex piece \s+ directly followed
by a non-whitespace requirement, hence deterministic). -/
def dropWsRequired : List Char → Option (List Char)
  | [] => none
  | c :: rest => if isJsSpace c then some (rest.dropWhile isJsSpace) else none

/-- Consume a quoted token (the regex piece of a double quote, one or
more non-quote characters, a double quote); returns the token content. -/
def parseQuoted : List Char → Option (List Char × List Char)
  | '"' :: rest =>
    let content := rest.takeWhile (fun c => c ≠ '"')
    match rest.dropWhile (fun c => c ≠ '"') with
    | '"' :: rest2 => if content = [] then none else some (content, rest2)
    | _ => none
  | _ => none

/-- Consume the separator between quoted tokens (\s* then a comma then \s*,
each deterministic because neither a comma nor a double quote is whitespace). -/
def parseCommaSep (s : List Char) : Option (List Char) :=
  match s.dropWhile isJsSpace with
  | ',' :: rest => some (rest.dropWhile isJsSpace)
  | _ => none

/-- The capture of the multi-field pattern: a greedy star of
quoted-token-plus-comma groups followed by a final quoted token, with the
continuation k standing for the remainder of the pattern. Backtracking:
prefer treating the current token as a star iteration; if the rest fails,
re-try it as the final token and hand the remainder to k. Fuel is
decremented once per quoted token; callers pass the string length, which
cannot be exhausted since every iteration consumes characters. -/
def quotedTokens (fuel : Nat) (k : List Char → Bool) (s : List Char) :
    Option (List (List Char) × List Char) :=
  match fuel with
  | 0 => none
  | fuel + 1 =>
    match parseQuoted s with
    | none => none
    | some (tok, rest) =>
      let viaStar :=
        match parseCommaSep rest with
        | some rest2 =>
          match quotedTokens fuel k rest2 with
          | some (toks, r) => some (tok :: toks, r)
          | none => none
        | none => none
      match viaStar with
      | some res => some res
      | none => if k rest then some ([tok], rest) else none

/-- The tail of the multi-field pattern: \s+ then the literal
"in collection" (deterministic: the letter i is not whitespace). -/
def multiTail (s : List Char) : Bool :=
  match dropWsRequired s with
  | some s2 => (litCI "in collection".toList s2).isSome
  | none => false

/-- Try the multi-field pattern at the current position:
access fields? \s+ ((?:"[^"]+"\s*,\s*)*"[^"]+") \s+ in collection, case
insensitive. Returns the quoted tokens of the capture in order. -/
def matchMultiAt (s : List Char) : Option (List (List Char)) :=
  match litCI "access field".toList s with
  | none => none
  | some s1 =>
    let s1 :=
      match s1 with
      | c :: rest => if c.toLower = 's' then rest else c :: rest
      | [] => []
    match dropWsRequired s1 with
    | none => none
    | some s2 =>
      match quotedTokens (s2.length + 1) multiTail s2 with
      | some (toks, _) => some toks
      | none => none

/-- Leftmost match of the multi-field pattern (JS String.match without
the global flag): try every start position left to right. -/
def findMulti : List Char → Option (List (List Char))
  | [] => none
  | c :: rest =>
    match matchMultiAt (c :: rest) with
    | some toks => some toks
    | none => findMulti rest

/-- Try the single-field pattern at the current position:
access field \s+ "[^"]+", case insensitive. Returns the captured field
and the remainder after the whole match. -/
def matchSingleAt (s : List Char) : Option (List Char × List Char) :=
  match litCI "access field".toList s with
  | none => none
  | some s1 =>
    match dropWsRequired s1 with
    | none => none
    | some s2 => parseQuoted s2

/-- All matches of the single-field pattern (JS matchAll: leftmost,
non-overlapping, resuming after each match). Fuel is decremented once
per position step; callers pass the string length plus one, which cannot
be exhausted since every step consumes at least one character. -/
def findSingles (fuel : Nat) (s : List Char) : List (List Char) :=
  match fuel, s with
  | 0, _ => []
  | _, [] => []
  | fuel + 1, c :: rest =>
    match matchSingleAt (c :: rest) with
    | some (tok, after) => tok :: findSingles fuel after
    | none => findSingles fuel rest

/-- Keep the first occurrence of each string (the out.includes dedup). -/
def dedupAux (seen : List String) : List String → List String
  | [] => []
  | x :: rest => if x ∈ seen then dedupAux seen rest else x :: dedupAux (x :: seen) rest

def dedup (l : List String) : List String := dedupAux [] l

/-- extractForbiddenFields from the source: first the multi-field
pattern (first match wins and the single-field pattern is not consulted),
then the single-field pattern over the whole string, no match giving the
empty list; duplicates are removed keeping first occurrence. -/
def extractForbiddenFields (reason : String) : List String :=
  let cs := reason.toList
  match findMulti cs with
  | some toks => dedup (toks.map (fun t => String.mk t))
  | none => dedup ((findSingles (cs.length + 1) cs).map (fun t => String.mk t))

/-!
The POST /simulate handler, embedded as a pure function.  External
collaborators are parameters: the directus_users lookup is a function
from user id to an optional row, and the ItemsService readByQuery
delegate is an oracle from the overall call number (simulated calls
first, then the requester call) to an outcome.  The run records, besides
the HTTP outcome, the accountability/query pairs of every delegate call
and the user ids looked up in the directory, so that temporal claims can
be stated about them.
-/

/-- The directus_users row read by the handler (role and status, with
null collapsed into absence as the source coalesces both with null). -/
structure UserRow where
  role : Option String
  status : Option String
deriving DecidableEq, Repr

/-- One outcome of a readByQuery call: items, or a rejection whose
reason is the string the handler reads from extensions.reason or from
the message, and whose status propagates to the HTTP response. -/
inductive DelegateOutcome where
  | ok (items : List Row)
  | err (status : Nat) (reason : String)
deriving DecidableEq, Repr

/-- The request body plus the request accountability.  none models an
absent (or, where the source type-checks with typeof, a non-string)
value; a JSON-string query is modelled by its parse result. -/
inductive QueryInput where
  | absent
  | obj (q : Query)
  | goodText (q : Query)
  | badText
deriving DecidableEq, Repr

/-- Parse step for body.query (parseJsonIfNeeded plus the null-coalesce
to the empty object); none signals invalid JSON text. -/
def parseQueryInput : QueryInput → Option Query
  | QueryInput.absent => some ⟨none, []⟩
  | QueryInput.obj q => some q
  | QueryInput.goodText q => some q
  | QueryInput.badText => none

structure SimRequest where
  accountability : Option Accountability
  mode : Option String
  collection : Option String
  queryInput : QueryInput
  includeRequester : Option Bool
  userId : Option String
  roleId : Option String
deriving Repr

/-- The JSON body of a successful response (200). -/
structure SimResponse where
  mode : String
  collection : String
  query : Query
  warnings : List String
  simulatedItems : List Row
  requesterItems : Option (List Row)
  hints : List Hint
deriving DecidableEq, Repr

/-- The HTTP outcome of one handler run: 403 (ForbiddenError), 400
(BadRequestError), a propagated delegate error with its own status, or a
200 with the response body. -/
inductive Outcome where
  | forbidden
  | badRequest
  | delegateError (status : Nat) (reason : String)
  | success (resp : SimResponse)
deriving DecidableEq, Repr

/-- One handler run together with its observable delegate traffic. -/
structure SimRun where
  outcome : Outcome
  simCalls : List (Accountability × Query)
  reqCalls : List (Accountability × Query)
  dbLookups : List String
deriving DecidableEq, Repr

/-- Warning strings pushed by the handler, verbatim from the source. -/
def roleWarning : String :=
  "Role-only simulation can\x27t evaluate $CURRENT_USER-dependent permission rules. Prefer mode \x27user\x27 for accurate results."

def noRoleWarning : String :=
  "User has no role assigned; simulation may deny most access."

def statusWarning (status : String) : String :=
  "User status is \x27" ++ status ++ "\x27. In real requests, non-active users cannot authenticate."

def wildcardWarning : String :=
  "Simulated context cannot access one or more fields while query.fields contains \x27*\x27. Retrying simulation with \x27*\x27 removed (keeping explicit fields only)."

def fieldsWarning (removedFields : List String) : String :=
  "Simulated context cannot access field(s) " ++
    String.intercalate ", " (removedFields.map (fun f => "\x27" ++ f ++ "\x27")) ++
    ". Retrying simulation with those fields removed from query.fields."

/-- Everything the handler has computed by the time it constructs the
simulated ItemsService. -/
structure ReadyCtx where
  mode : String
  collection : String
  query : Query
  includeRequester : Bool
  requesterAcc : Accountability
  simAcc : Accountability
  warnings : List String
deriving Repr

/-- Validation and context building: the admin gate, the collection and
mode checks, the query parse, and the per-mode accountability synthesis
including the directus_users lookup for mode user without a truthy
roleId.  The second component records the ids looked up. -/
def buildContext (db : String → Option UserRow) (req : SimRequest) :
    Except Outcome ReadyCtx × List String :=
  match req.accountability with
  | none => (Except.error Outcome.forbidden, [])
  | some acc =>
    if acc.admin = false then (Except.error Outcome.forbidden, [])
    else
      let mode := req.mode.getD "requester"
      let includeRequester := req.includeRequester.getD true
      if truthyStr req.collection = false then (Except.error Outcome.badRequest, [])
      else
        let collection := req.collection.getD ""
        if ¬ (mode = "requester" ∨ mode = "user" ∨ mode = "role" ∨ mode = "public") then
          (Except.error Outcome.badRequest, [])
        else
          match parseQueryInput req.queryInput with
          | none => (Except.error Outcome.badRequest, [])
          | some query =>
            if mode = "public" then
              (Except.ok ⟨mode, collection, query, includeRequester, acc,
                buildSimulatedAccountability acc ⟨some none, some none, some false, some true⟩,
                []⟩, [])
            else if mode = "role" then
              if truthyStr req.roleId = false then (Except.error Outcome.badRequest, [])
              else
                (Except.ok ⟨mode, collection, query, includeRequester, acc,
                  buildSimulatedAccountability acc ⟨some none, some req.roleId, some false, some true⟩,
                  [roleWarning]⟩, [])
            else if mode = "user" then
              if truthyStr req.userId = false then (Except.error Outcome.badRequest, [])
              else if truthyStr req.roleId then
                (Except.ok ⟨mode, collection, query, includeRequester, acc,
                  buildSimulatedAccountability acc ⟨some req.userId, some req.roleId, some false, some true⟩,
                  []⟩, [])
              else
                let uid := req.userId.getD ""
                match db uid with
                | none => (Except.error Outcome.badRequest, [uid])
                | some row =>
                  let ws :=
                    (if truthyStr row.role = false then [noRoleWarning] else []) ++
                    (match row.status with
                     | some s => if s ≠ "" ∧ s ≠ "active" then [statusWarning s] else []
                     | none => [])
                  (Except.ok ⟨mode, collection, query, includeRequester, acc,
                    buildSimulatedAccountability acc ⟨some req.userId, some row.role, some false, some true⟩,
                    ws⟩, [uid])
            else
              (Except.ok ⟨mode, collection, query, includeRequester, acc, acc, []⟩, [])

/-- The two recovery warnings pushed before the retry: the wildcard one
first when the wildcard was removed, then the removed-fields one when
any forbidden field was removed. -/
def retryWarnings (r : StripResult) : List String :=
  (if r.removedWildcard then [wildcardWarning] else []) ++
  (if r.removedFields = [] then [] else [fieldsWarning r.removedFields])

/-- The simulated readByQuery with its single-retry recovery: primary
attempt (call 0); on failure, extract the forbidden fields from the
reason, strip them from the query, and either rethrow (nothing
extractable or nothing removed) or push the recovery warnings and retry
once (call 1), whose own failure propagates.  Also returns the queries
of the calls made. -/
def runSimulatedQuery (d : Nat → DelegateOutcome) (query : Query) :
    Except (Nat × String) (List Row × List String) × List Query :=
  match d 0 with
  | DelegateOutcome.ok items => (Except.ok (items, []), [query])
  | DelegateOutcome.err st reason =>
    if extractForbiddenFields reason = [] then (Except.error (st, reason), [query])
    else if (stripFieldsFromQuery query (extractForbiddenFields reason)).removedFields = [] ∧
        (stripFieldsFromQuery query (extractForbiddenFields reason)).removedWildcard = false then
      (Except.error (st, reason), [query])
    else
      match d 1 with
      | DelegateOutcome.ok items =>
        (Except.ok (items, retryWarnings (stripFieldsFromQuery query (extractForbiddenFields reason))),
          [query, (stripFieldsFromQuery query (extractForbiddenFields reason)).nextQuery])
      | DelegateOutcome.err st2 rs2 =>
        (Except.error (st2, rs2),
          [query, (stripFieldsFromQuery query (extractForbiddenFields reason)).nextQuery])

/-- The rest of the handler after the context is built: the simulated
attempt and retry, the optional requester attempt with the original
query, the hints, and the response assembly (note: the response echoes
the parsed original query, never the narrowed retry query). -/
def afterContext (d : Nat → DelegateOutcome) (ctx : ReadyCtx) (lk : List String) : SimRun :=
  match (runSimulatedQuery d ctx.query).1 with
  | Except.error e =>
    ⟨Outcome.delegateError e.1 e.2,
      (runSimulatedQuery d ctx.query).2.map (fun q => (ctx.simAcc, q)), [], lk⟩
  | Except.ok (items, ws2) =>
    if ctx.includeRequester then
      match d (runSimulatedQuery d ctx.query).2.length with
      | DelegateOutcome.err st rs =>
        ⟨Outcome.delegateError st rs,
          (runSimulatedQuery d ctx.query).2.map (fun q => (ctx.simAcc, q)),
          [(ctx.requesterAcc, ctx.query)], lk⟩
      | DelegateOutcome.ok reqItems =>
        ⟨Outcome.success ⟨ctx.mode, ctx.collection, ctx.query, ctx.warnings ++ ws2, items,
            some reqItems, buildHints (getFirstItem reqItems) (getFirstItem items)⟩,
          (runSimulatedQuery d ctx.query).2.map (fun q => (ctx.simAcc, q)),
          [(ctx.requesterAcc, ctx.query)], lk⟩
    else
      ⟨Outcome.success ⟨ctx.mode, ctx.collection, ctx.query, ctx.warnings ++ ws2, items,
          none, []⟩,
        (runSimulatedQuery d ctx.query).2.map (fun q => (ctx.simAcc, q)), [], lk⟩

/-- The whole POST /simulate handler. -/
def simulate (db : String → Option UserRow) (d : Nat → DelegateOutcome)
    (req : SimRequest) : SimRun :=
  match buildContext db req with
  | (Except.error o, lk) => ⟨o, [], [], lk⟩
  | (Except.ok ctx, lk) => afterContext d ctx lk

/-! Concrete inputs used by witnesses and counterexamples. -/

/-- An administrator accountability whose roles array is non-empty. -/
def adminAcc : Accountability := ⟨some "admin-id", some "admin-role", true, true, some ["admin-role"]⟩

def emptyQuery : Query := ⟨none, []⟩

/-- The overrides the handler passes for mode public. -/
def publicOverrides : Overrides := ⟨some none, some none, some false, some true⟩

/-- A query asking for two explicit fields. -/
def qTitleSecret : Query := ⟨some ["title", "secret"], [("limit", JVal.jnum 1)]⟩

/-- A recoverable authorization failure naming the field secret. -/
def reasonSecret : String :=
  "You don\x27t have permission to access field \"secret\" in collection \"posts\"."

/-- Delegate failing on the primary attempt with a recoverable error and
succeeding on every later call. -/
def dRetryOk : Nat → DelegateOutcome :=
  fun n => if n = 0 then DelegateOutcome.err 403 reasonSecret else DelegateOutcome.ok []

/-- Delegate failing on the primary attempt with a recoverable error and
failing on every later call with a plain 500. -/
def dRetryFail : Nat → DelegateOutcome :=
  fun n => if n = 0 then DelegateOutcome.err 403 reasonSecret else DelegateOutcome.err 500 "boom"

/-- Delegate that always succeeds with an empty result set. -/
def dAllOk : Nat → DelegateOutcome := fun _ => DelegateOutcome.ok []

/-- An empty user directory. -/
def dbEmpty : String → Option UserRow := fun _ => none

/-- A directory holding exactly user u1 with a role and a non-active status. -/
def dbU1 : String → Option UserRow :=
  fun u => if u = "u1" then some ⟨some "role-x", some "suspended"⟩ else none

def reqRetry : SimRequest :=
  ⟨some adminAcc, some "requester", some "posts", QueryInput.obj qTitleSecret, some false, none, none⟩

def reqNoMode : SimRequest :=
  ⟨some adminAcc, none, some "posts", QueryInput.absent, none, none, none⟩

def reqBadMode : SimRequest :=
  ⟨some adminAcc, some "bogus", some "posts", QueryInput.absent, none, none, none⟩

def reqPublic : SimRequest :=
  ⟨some adminAcc, some "public", some "posts", QueryInput.absent, some false, none, none⟩

def reqUserEmptyRole : SimRequest :=
  ⟨some adminAcc, some "user", some "posts", QueryInput.absent, some false, some "u1", some ""⟩

def reqUserExplicitRole : SimRequest :=
  ⟨some adminAcc, some "user", some "posts", QueryInput.absent, some false, some "u1", some "r9"⟩

/-! Helper lemmas about the removal loop and the query mutator. -/

theorem removeForbidden_fst_cons (l : List String) (fb : String) (rest : List String) :
    (removeForbidden l (fb :: rest)).1 = (removeForbidden (l.filter (fun f => f ≠ fb)) rest).1 := by
  simp only [removeForbidden]
  split <;> rfl

theorem mem_removeForbidden_fst {a : String} {F : List String} :
    ∀ {l : List String}, a ∈ (removeForbidden l F).1 ↔ a ∈ l ∧ a ∉ F := by
  induction F with
  | nil => intro l; simp [removeForbidden]
  | cons fb rest ih =>
    intro l
    rw [removeForbidden_fst_cons, ih]
    simp only [List.mem_filter, List.mem_cons, decide_eq_true_eq]
    tauto

theorem removeForbidden_eq_self {F : List String} :
    ∀ {l : List String}, (∀ a ∈ l, a ∉ F) → removeForbidden l F = (l, []) := by
  induction F with
  | nil => intro l _; rfl
  | cons fb rest ih =>
    intro l h
    have hf : l.filter (fun f => f ≠ fb) = l := by
      rw [List.filter_eq_self]
      intro a ha
      simp only [decide_eq_true_eq]
      exact fun he => (h a ha) (by simp [he])
    have hrest : removeForbidden l rest = (l, []) := by
      exact ih (fun a ha hm => (h a ha) (by simp [hm]))
    simp only [removeForbidden, hf, hrest]
    simp

theorem mem_removeForbidden_snd {a : String} {F : List String} :
    ∀ {l : List String}, a ∈ (removeForbidden l F).2 → a ∈ F := by
  induction F with
  | nil => intro l h; simp [removeForbidden] at h
  | cons fb rest ih =>
    intro l h
    simp only [removeForbidden] at h
    split at h
    · rcases List.mem_cons.mp h with h | h
      · simp [h]
      · exact List.mem_cons_of_mem _ (ih h)
    · exact List.mem_cons_of_mem _ (ih h)

/-- Every run of stripFieldsFromQuery either returns the input query
with empty removal records, or returns a query whose field list is free
of the wildcard and of every forbidden field. -/
theorem strip_cases (q : Query) (F : List String) :
    stripFieldsFromQuery q F = ⟨q, [], false⟩ ∨
    ∃ nf rf rw, stripFieldsFromQuery q F = ⟨{ q with fields := some nf }, rf, rw⟩ ∧
      "*" ∉ nf ∧ ∀ a ∈ nf, a ∉ F := by
  rcases hq : q.fields with _ | fl
  · left; simp [stripFieldsFromQuery, hq]
  · by_cases hF : F = []
    · left; simp [stripFieldsFromQuery, hq, hF]
    · by_cases hw : "*" ∈ fl
      · by_cases hww : fl.filter (fun f => f ≠ "*") = []
        · left
          simp only [stripFieldsFromQuery, hq]
          rw [if_neg hF, if_pos hw, if_pos hww]
        · right
          refine ⟨(removeForbidden (fl.filter (fun f => f ≠ "*")) F).1,
            (removeForbidden (fl.filter (fun f => f ≠ "*")) F).2, true, ?_, ?_, ?_⟩
          · simp only [stripFieldsFromQuery, hq]
            rw [if_neg hF, if_pos hw, if_neg hww]
          · intro hmem
            have := (mem_removeForbidden_fst.mp hmem).1
            simp at this
          · intro a ha; exact (mem_removeForbidden_fst.mp ha).2
      · by_cases hr : (removeForbidden fl F).2 = []
        · left
          simp only [stripFieldsFromQuery, hq]
          rw [if_neg hF, if_neg hw, if_pos hr]
        · right
          refine ⟨(removeForbidden fl F).1, (removeForbidden fl F).2, false, ?_, ?_, ?_⟩
          · simp only [stripFieldsFromQuery, hq]
            rw [if_neg hF, if_neg hw, if_neg hr]
          · intro hmem; exact hw (mem_removeForbidden_fst.mp hmem).1
          · intro a ha; exact (mem_removeForbidden_fst.mp ha).2

/-- Claim C9: the Query Mutator is idempotent for a fixed forbidden-field
set: stripping the nextQuery of a strip with the same forbidden set
returns that query unchanged, with empty removedFields and
removedWildcard false. -/
theorem c9_strip_idempotent (q : Query) (F : List String) :
    stripFieldsFromQuery (stripFieldsFromQuery q F).nextQuery F =
      ⟨(stripFieldsFromQuery q F).nextQuery, [], false⟩ := by
  rcases strip_cases q F with h | ⟨nf, rf, rw, h, hstar, hmem⟩
  · rw [h]
    exact h
  · rw [h]
    show stripFieldsFromQuery { q with fields := some nf } F = _
    by_cases hF : F = []
    · simp [stripFieldsFromQuery, hF]
    · simp only [stripFieldsFromQuery]
      rw [if_neg hF, if_neg hstar, if_pos]
      rw [removeForbidden_eq_self hmem]

/-- Claim C3 (counterexample): with query fields ["secret"] and forbidden
set ["secret"], removal leaves zero fields, yet the mutator does not
return the original query unchanged with empty removal lists: it returns
a modified query whose field list is empty, recording the removal. -/
theorem c3_counterexample :
    (stripFieldsFromQuery ⟨some ["secret"], []⟩ ["secret"]).nextQuery.fields = some [] ∧
    (stripFieldsFromQuery ⟨some ["secret"], []⟩ ["secret"]).removedFields = ["secret"] ∧
    (stripFieldsFromQuery ⟨some ["secret"], []⟩ ["secret"]).nextQuery ≠
      (⟨some ["secret"], []⟩ : Query) := by
  refine ⟨rfl, rfl, ?_⟩
  decide

/-- Claim C3 (amended): the Query Mutator never removes a non-wildcard
field that is not in the forbidden set, never touches any query property
other than fields, and its only silent zero-guard is the pure-wildcard
case (a field list whose entries are all the wildcard is returned
unchanged with empty removal lists); removing forbidden fields may leave
an empty field list, which is returned with the removals recorded. -/
theorem c3_amended (q : Query) (F : List String) :
    (∀ f ∈ (stripFieldsFromQuery q F).removedFields, f ∈ F) ∧
    ((stripFieldsFromQuery q F).nextQuery.rest = q.rest) ∧
    (∀ fl fl2 f, q.fields = some fl → (stripFieldsFromQuery q F).nextQuery.fields = some fl2 →
      f ∈ fl → f ≠ "*" → f ∉ F → f ∈ fl2) ∧
    (∀ fl, q.fields = some fl → "*" ∈ fl → fl.filter (fun f => f ≠ "*") = [] →
      stripFieldsFromQuery q F = ⟨q, [], false⟩) := by
  refine ⟨?_, ?_, ?_, ?_⟩
  · intro f hf
    rcases hq : q.fields with _ | fl
    · simp [stripFieldsFromQuery, hq] at hf
    · by_cases hF : F = []
      · simp [stripFieldsFromQuery, hq, hF] at hf
      · by_cases hw : "*" ∈ fl
        · by_cases hww : fl.filter (fun f => f ≠ "*") = []
          · simp only [stripFieldsFromQuery, hq] at hf
            rw [if_neg hF, if_pos hw, if_pos hww] at hf
            simp at hf
          · simp only [stripFieldsFromQuery, hq] at hf
            rw [if_neg hF, if_pos hw, if_neg hww] at hf
            exact mem_removeForbidden_snd hf
        · by_cases hr : (removeForbidden fl F).2 = []
          · simp only [stripFieldsFromQuery, hq] at hf
            rw [if_neg hF, if_neg hw, if_pos hr] at hf
            simp at hf
          · simp only [stripFieldsFromQuery, hq] at hf
            rw [if_neg hF, if_neg hw, if_neg hr] at hf
            exact mem_removeForbidden_snd hf
  · rcases strip_cases q F with h | ⟨nf, rf, rw, h, _, _⟩ <;> rw [h]
  · intro fl fl2 f hq hf2 hmem hstar hF
    by_cases hF0 : F = []
    · have hres : stripFieldsFromQuery q F = ⟨q, [], false⟩ := by
        simp [stripFieldsFromQuery, hq, hF0]
      rw [hres] at hf2
      have h2 : q.fields = some fl2 := hf2
      rw [hq] at h2
      exact (Option.some.inj h2) ▸ hmem
    · by_cases hw : "*" ∈ fl
      · by_cases hww : fl.filter (fun g => g ≠ "*") = []
        · have hres : stripFieldsFromQuery q F = ⟨q, [], false⟩ := by
            simp only [stripFieldsFromQuery, hq]
            rw [if_neg hF0, if_pos hw, if_pos hww]
          rw [hres] at hf2
          have h2 : q.fields = some fl2 := hf2
          rw [hq] at h2
          exact (Option.some.inj h2) ▸ hmem
        · have hres : stripFieldsFromQuery q F =
              ⟨{ q with fields := some (removeForbidden (fl.filter (fun g => g ≠ "*")) F).1 },
                (removeForbidden (fl.filter (fun g => g ≠ "*")) F).2, true⟩ := by
            simp only [stripFieldsFromQuery, hq]
            rw [if_neg hF0, if_pos hw, if_neg hww]
          rw [hres] at hf2
          have h2 : some (removeForbidden (fl.filter (fun g => g ≠ "*")) F).1 = some fl2 := hf2
          rw [← Option.some.inj h2]
          exact mem_removeForbidden_fst.mpr
            ⟨List.mem_filter.mpr ⟨hmem, by simpa using hstar⟩, hF⟩
      · by_cases hr : (removeForbidden fl F).2 = []
        · have hres : stripFieldsFromQuery q F = ⟨q, [], false⟩ := by
            simp only [stripFieldsFromQuery, hq]
            rw [if_neg hF0, if_neg hw, if_pos hr]
          rw [hres] at hf2
          have h2 : q.fields = some fl2 := hf2
          rw [hq] at h2
          exact (Option.some.inj h2) ▸ hmem
        · have hres : stripFieldsFromQuery q F =
              ⟨{ q with fields := some (removeForbidden fl F).1 },
                (removeForbidden fl F).2, false⟩ := by
            simp only [stripFieldsFromQuery, hq]
            rw [if_neg hF0, if_neg hw, if_neg hr]
          rw [hres] at hf2
          have h2 : some (removeForbidden fl F).1 = some fl2 := hf2
          rw [← Option.some.inj h2]
          exact mem_removeForbidden_fst.mpr ⟨hmem, hF⟩
  · intro fl hq hw hww
    by_cases hF : F = []
    · simp [stripFieldsFromQuery, hq, hF]
    · simp only [stripFieldsFromQuery, hq]
      rw [if_neg hF, if_pos hw, if_pos hww]

/-- Claim C3 (witness): the guarantees instantiated on the wildcard query
with fields ["*", "title"] and forbidden set ["secret"]. -/
theorem c3_witness :
    ((⟨some ["*", "title"], []⟩ : Query).fields = some ["*", "title"] ∧
      (stripFieldsFromQuery ⟨some ["*", "title"], []⟩ ["secret"]).nextQuery.fields = some ["title"] ∧
      ("title" : String) ∈ ["*", "title"] ∧ ("title" : String) ≠ "*" ∧
        ("title" : String) ∉ ["secret"]) ∧
    ("title" : String) ∈ ["title"] := by
  refine ⟨⟨rfl, rfl, by decide, by decide, by decide⟩, ?_⟩
  exact (c3_amended ⟨some ["*", "title"], []⟩ ["secret"]).2.2.1 ["*", "title"] ["title"] "title"
    rfl rfl (by decide) (by decide) (by decide)

/-- Claim C2 (counterexample): for baseline first row with a = 1, b =
null, c = "x" and simulated first row with a = 1, c = null, the Result
Differ emits hints for both b and c: b is absent from the simulated row
and therefore gets a missing hint, contradicting the claim that the
hints are exactly the single hint for c. -/
theorem c2_counterexample :
    (buildHints
        (some (Row.obj [("a", JVal.jnum 1), ("b", JVal.jnull), ("c", JVal.jstr "x")]))
        (some (Row.obj [("a", JVal.jnum 1), ("c", JVal.jnull)]))).map Hint.field =
      ["b", "c"] := by
  rfl

/-- Claim C2 (amended): for baseline first row with a = 1, b = null,
c = "x" and simulated first row with a = 1, c = null, the hints are
exactly a missing hint for b (absent from the simulated row; its null
baseline value is irrelevant to the missing check) followed by a null
hint for c; no hint is emitted for a. -/
theorem c2_amended :
    buildHints
        (some (Row.obj [("a", JVal.jnum 1), ("b", JVal.jnull), ("c", JVal.jstr "x")]))
        (some (Row.obj [("a", JVal.jnum 1), ("c", JVal.jnull)])) =
      [⟨"b", "missing", missingNote⟩, ⟨"c", "null", nullNote⟩] := by
  rfl

/-- Claim C6: the Forbidden-Field Extractor returns exactly
["secret_note", "date_created"], in that order, on the documented
multi-field message; and on any string matched by neither the
multi-field pattern nor the single-field pattern it returns the empty
list. -/
theorem c6_extractor :
    extractForbiddenFields
        "You don\x27t have permission to access fields \"secret_note\", \"date_created\" in collection \"posts\"" =
      ["secret_note", "date_created"] ∧
    ∀ reason : String,
      findMulti reason.toList = none →
      findSingles (reason.toList.length + 1) reason.toList = [] →
      extractForbiddenFields reason = [] := by
  constructor
  · rfl
  · intro reason h1 h2
    show (match findMulti reason.toList with
      | some toks => dedup (toks.map (fun t => String.mk t))
      | none =>
        dedup ((findSingles (reason.toList.length + 1) reason.toList).map
          (fun t => String.mk t))) = []
    rw [h1, h2]
    rfl

/-- Claim C6 (witness): a message with no recognizable phrase matches
neither pattern and extracts nothing. -/
theorem c6_witness :
    findMulti "no recognizable phrase".toList = none ∧
    findSingles ("no recognizable phrase".toList.length + 1) "no recognizable phrase".toList = [] ∧
    extractForbiddenFields "no recognizable phrase" = [] :=
  ⟨rfl, rfl, c6_extractor.2 "no recognizable phrase" rfl rfl⟩

/-! Helper lemmas about the accountability builder. -/

theorem applyOverrides_roles (b : Accountability) (o : Overrides) :
    (applyOverrides b o).roles = b.roles := by
  rcases o with ⟨ou, orl, oa, op⟩
  cases ou <;> cases orl <;> cases oa <;> cases op <;> rfl

theorem applyOverrides_role (b : Accountability) (o : Overrides) (v : Option String)
    (h : o.role = some v) : (applyOverrides b o).role = v := by
  rcases o with ⟨ou, orl, oa, op⟩
  cases orl with
  | none => simp at h
  | some w =>
    have hw : w = v := by simpa using h
    subst hw
    cases ou <;> cases oa <;> cases op <;> rfl

theorem applyOverrides_admin (b : Accountability) (o : Overrides) (a : Bool)
    (h : o.admin = some a) : (applyOverrides b o).admin = a := by
  rcases o with ⟨ou, orl, oa, op⟩
  cases oa with
  | none => simp at h
  | some w =>
    have hw : w = a := by simpa using h
    subst hw
    cases ou <;> cases orl <;> cases op <;> rfl

theorem padRoles_roles (n : Accountability) :
    (padRoles n).roles = some (n.roles.getD []) := by
  rcases n with ⟨u, r, a, p, rs⟩
  cases rs <;> rfl

theorem padRoles_role (n : Accountability) : (padRoles n).role = n.role := by
  rcases n with ⟨u, r, a, p, rs⟩
  cases rs <;> rfl

theorem padRoles_admin (n : Accountability) : (padRoles n).admin = n.admin := by
  rcases n with ⟨u, r, a, p, rs⟩
  cases rs <;> rfl

theorem fixRoles_role (n : Accountability) : (fixRoles n).role = n.role := by
  rcases n with ⟨u, r, a, p, rs⟩
  cases r <;> cases rs <;> simp only [fixRoles, padRoles] <;> (first | rfl | (split <;> rfl))

theorem fixRoles_admin (n : Accountability) : (fixRoles n).admin = n.admin := by
  rcases n with ⟨u, r, a, p, rs⟩
  cases r <;> cases rs <;> simp only [fixRoles, padRoles] <;> (first | rfl | (split <;> rfl))

theorem fixRoles_user (n : Accountability) : (fixRoles n).user = n.user := by
  rcases n with ⟨u, r, a, p, rs⟩
  cases r <;> cases rs <;> simp only [fixRoles, padRoles] <;> (first | rfl | (split <;> rfl))

theorem fixRoles_roles (n : Accountability) :
    (fixRoles n).roles =
      match n.role with
      | some r => if r = "" then some (n.roles.getD []) else some [r]
      | none => some (n.roles.getD []) := by
  rcases n with ⟨u, r, a, p, rs⟩
  cases r <;> cases rs <;> simp only [fixRoles, padRoles] <;> (first | rfl | (split <;> rfl))

/-- Claim C4 (counterexample): a public-mode simulation by a caller whose
own context carries a non-empty roles array produces a synthesized
context with roleId absent but roles equal to the caller roles array,
not the empty list the claim requires. -/
theorem c4_counterexample :
    (buildSimulatedAccountability adminAcc publicOverrides).role = none ∧
    (buildSimulatedAccountability adminAcc publicOverrides).roles = some ["admin-role"] ∧
    (simulate dbEmpty dAllOk reqPublic).simCalls =
      [(buildSimulatedAccountability adminAcc publicOverrides, emptyQuery)] := by
  refine ⟨rfl, rfl, rfl⟩

/-- Claim C4 (amended): every context produced by the Accountability
Builder has roles equal to the singleton of its role when that role is a
non-empty string, and otherwise keeps the base roles array when the base
had one (falling back to the empty array only when it did not); in
particular a public-mode synthesis has role null and roles equal to the
base roles array (or empty if the base had none), not necessarily empty. -/
theorem c4_amended (b : Accountability) (o : Overrides) :
    ((buildSimulatedAccountability b o).roles =
      match (buildSimulatedAccountability b o).role with
      | some r => if r = "" then some (b.roles.getD []) else some [r]
      | none => some (b.roles.getD [])) ∧
    (buildSimulatedAccountability b publicOverrides).role = none ∧
    (buildSimulatedAccountability b publicOverrides).roles = some (b.roles.getD []) := by
  refine ⟨?_, ?_, ?_⟩
  · rw [buildSimulatedAccountability, fixRoles_roles, fixRoles_role, applyOverrides_roles]
  · rw [buildSimulatedAccountability, fixRoles_role]
    exact applyOverrides_role b publicOverrides none rfl
  · rw [buildSimulatedAccountability, fixRoles_roles, applyOverrides_roles,
      applyOverrides_role b publicOverrides none rfl]

/-- Admin override wins: a builder call whose overrides pin admin yields
that admin flag. -/
theorem buildSimulatedAccountability_admin (b : Accountability) (o : Overrides) (a : Bool)
    (h : o.admin = some a) : (buildSimulatedAccountability b o).admin = a := by
  rw [buildSimulatedAccountability, fixRoles_admin]
  exact applyOverrides_admin b o a h

/-- Role override wins: a builder call whose overrides pin role yields
that role. -/
theorem buildSimulatedAccountability_role (b : Accountability) (o : Overrides) (v : Option String)
    (h : o.role = some v) : (buildSimulatedAccountability b o).role = v := by
  rw [buildSimulatedAccountability, fixRoles_role]
  exact applyOverrides_role b o v h

/-- Inversion of the context-building phase: a successfully built
context comes from an administrator caller, carries the parsed query and
the caller accountability, and its simulated accountability, warnings
and directory lookups are exactly those of one of the five mode
branches. -/
theorem buildContext_inv {db : String → Option UserRow} {req : SimRequest}
    {ctx : ReadyCtx} {lk : List String}
    (hbc : buildContext db req = (Except.ok ctx, lk)) :
    ∃ acc query, req.accountability = some acc ∧ acc.admin = true ∧
      parseQueryInput req.queryInput = some query ∧
      ctx.query = query ∧ ctx.requesterAcc = acc ∧
      ctx.mode = req.mode.getD "requester" ∧
      ctx.includeRequester = req.includeRequester.getD true ∧
      ((ctx.mode = "requester" ∧ ctx.simAcc = acc ∧ ctx.warnings = [] ∧ lk = []) ∨
       (ctx.mode = "public" ∧
         ctx.simAcc = buildSimulatedAccountability acc publicOverrides ∧
         ctx.warnings = [] ∧ lk = []) ∨
       (ctx.mode = "role" ∧ truthyStr req.roleId = true ∧
         ctx.simAcc = buildSimulatedAccountability acc
           ⟨some none, some req.roleId, some false, some true⟩ ∧
         ctx.warnings = [roleWarning] ∧ lk = []) ∨
       (ctx.mode = "user" ∧ truthyStr req.userId = true ∧ truthyStr req.roleId = true ∧
         ctx.simAcc = buildSimulatedAccountability acc
           ⟨some req.userId, some req.roleId, some false, some true⟩ ∧
         ctx.warnings = [] ∧ lk = []) ∨
       (ctx.mode = "user" ∧ truthyStr req.userId = true ∧ truthyStr req.roleId = false ∧
         ∃ row, db (req.userId.getD "") = some row ∧
           ctx.simAcc = buildSimulatedAccountability acc
             ⟨some req.userId, some row.role, some false, some true⟩ ∧
           ctx.warnings =
             ((if truthyStr row.role = false then [noRoleWarning] else []) ++
              (match row.status with
               | some s => if s ≠ "" ∧ s ≠ "active" then [statusWarning s] else []
               | none => [])) ∧
           lk = [req.userId.getD ""])) := by
  rcases req with ⟨racc, rmode, rcoll, rq, rinc, ruid, rrid⟩
  cases racc with
  | none => exact absurd hbc (by simp [buildContext])
  | some acc =>
    simp only [buildContext] at hbc
    by_cases hadm : acc.admin = false
    · rw [if_pos hadm] at hbc
      exact absurd hbc (by simp)
    · rw [if_neg hadm] at hbc
      have hadm2 : acc.admin = true := by
        cases h : acc.admin
        · exact absurd h hadm
        · rfl
      by_cases htc : truthyStr rcoll = false
      · rw [if_pos htc] at hbc
        exact absurd hbc (by simp)
      · rw [if_neg htc] at hbc
        by_cases hmv : ¬ (rmode.getD "requester" = "requester" ∨ rmode.getD "requester" = "user" ∨
            rmode.getD "requester" = "role" ∨ rmode.getD "requester" = "public")
        · rw [if_pos hmv] at hbc
          exact absurd hbc (by simp)
        · rw [if_neg hmv] at hbc
          cases hpq : parseQueryInput rq with
          | none =>
            rw [hpq] at hbc
            exact absurd hbc (by simp)
          | some query =>
            rw [hpq] at hbc
            dsimp only at hbc
            by_cases hpub : rmode.getD "requester" = "public"
            · rw [if_pos hpub] at hbc
              injection hbc with h1 h2
              injection h1 with h3
              subst h2
              subst h3
              exact ⟨acc, query, rfl, hadm2, rfl, rfl, rfl, rfl, rfl,
                Or.inr (Or.inl ⟨hpub, rfl, rfl, rfl⟩)⟩
            · rw [if_neg hpub] at hbc
              by_cases hrole : rmode.getD "requester" = "role"
              · rw [if_pos hrole] at hbc
                by_cases htr : truthyStr rrid = false
                · rw [if_pos htr] at hbc
                  exact absurd hbc (by simp)
                · rw [if_neg htr] at hbc
                  have htr2 : truthyStr rrid = true := by
                    cases h : truthyStr rrid
                    · exact absurd h htr
                    · rfl
                  injection hbc with h1 h2
                  injection h1 with h3
                  subst h2
                  subst h3
                  exact ⟨acc, query, rfl, hadm2, rfl, rfl, rfl, rfl, rfl,
                    Or.inr (Or.inr (Or.inl ⟨hrole, htr2, rfl, rfl, rfl⟩))⟩
              · rw [if_neg hrole] at hbc
                by_cases huser : rmode.getD "requester" = "user"
                · rw [if_pos huser] at hbc
                  by_cases htu : truthyStr ruid = false
                  · rw [if_pos htu] at hbc
                    exact absurd hbc (by simp)
                  · rw [if_neg htu] at hbc
                    have htu2 : truthyStr ruid = true := by
                      cases h : truthyStr ruid
                      · exact absurd h htu
                      · rfl
                    by_cases htr : truthyStr rrid = true
                    · rw [if_pos htr] at hbc
                      injection hbc with h1 h2
                      injection h1 with h3
                      subst h2
                      subst h3
                      exact ⟨acc, query, rfl, hadm2, rfl, rfl, rfl, rfl, rfl,
                        Or.inr (Or.inr (Or.inr (Or.inl ⟨huser, htu2, htr, rfl, rfl, rfl⟩)))⟩
                    · rw [if_neg htr] at hbc
                      have htr2 : truthyStr rrid = false := by
                        cases h : truthyStr rrid
                        · rfl
                        · exact absurd h htr
                      cases hdb : db (ruid.getD "") with
                      | none =>
                        rw [hdb] at hbc
                        exact absurd hbc (by simp)
                      | some row =>
                        rw [hdb] at hbc
                        dsimp only at hbc
                        injection hbc with h1 h2
                        injection h1 with h3
                        subst h2
                        subst h3
                        exact ⟨acc, query, rfl, hadm2, rfl, rfl, rfl, rfl, rfl,
                          Or.inr (Or.inr (Or.inr (Or.inr ⟨huser, htu2, htr2,
                            row, rfl, rfl, rfl, rfl⟩)))⟩
                · rw [if_neg huser] at hbc
                  have hreq : rmode.getD "requester" = "requester" := by
                    rcases not_not.mp hmv with h | h | h | h
                    · exact h
                    · exact absurd h huser
                    · exact absurd h hrole
                    · exact absurd h hpub
                  injection hbc with h1 h2
                  injection h1 with h3
                  subst h2
                  subst h3
                  exact ⟨acc, query, rfl, hadm2, rfl, rfl, rfl, rfl, rfl,
                    Or.inl ⟨hreq, rfl, rfl, rfl⟩⟩

/-- simulate unfolds to an early exit when context building fails. -/
theorem simulate_error {db : String → Option UserRow} {d : Nat → DelegateOutcome}
    {req : SimRequest} {o : Outcome} {lk : List String}
    (h : buildContext db req = (Except.error o, lk)) :
    simulate db d req = ⟨o, [], [], lk⟩ := by
  unfold simulate
  rw [h]

/-- simulate unfolds to the delegate phase when context building succeeds. -/
theorem simulate_ok {db : String → Option UserRow} {d : Nat → DelegateOutcome}
    {req : SimRequest} {ctx : ReadyCtx} {lk : List String}
    (h : buildContext db req = (Except.ok ctx, lk)) :
    simulate db d req = afterContext d ctx lk := by
  unfold simulate
  rw [h]

/-- In every branch of the delegate phase, the simulated-service calls
are the queries of the simulated attempt paired with the simulated
accountability. -/
theorem afterContext_simCalls (d : Nat → DelegateOutcome) (ctx : ReadyCtx) (lk : List String) :
    (afterContext d ctx lk).simCalls =
      (runSimulatedQuery d ctx.query).2.map (fun q => (ctx.simAcc, q)) := by
  cases h : (runSimulatedQuery d ctx.query).1 with
  | error e => simp only [afterContext, h]
  | ok pr =>
    rcases pr with ⟨items, ws⟩
    simp only [afterContext, h]
    split
    · cases d (runSimulatedQuery d ctx.query).2.length <;> rfl
    · rfl

/-- The simulated attempt makes one or two calls, never more. -/
theorem runSim_calls_len (d : Nat → DelegateOutcome) (q : Query) :
    (runSimulatedQuery d q).2.length ≤ 2 := by
  unfold runSimulatedQuery
  cases d 0 with
  | ok items => simp
  | err st reason =>
    repeat' split
    all_goals simp

/-- If the simulated attempt made two calls and the second delegate call
failed, the simulated attempt fails with exactly that error. -/
theorem runSim_retry_err (d : Nat → DelegateOutcome) (q : Query) (st2 : Nat) (rs2 : String)
    (h1 : d 1 = DelegateOutcome.err st2 rs2)
    (h2 : (runSimulatedQuery d q).2.length = 2) :
    (runSimulatedQuery d q).1 = Except.error (st2, rs2) := by
  unfold runSimulatedQuery at h2 ⊢
  cases hd0 : d 0 with
  | ok items => simp only [hd0] at h2; simp at h2
  | err st reason =>
    simp only [hd0] at h2 ⊢
    by_cases hf : extractForbiddenFields reason = []
    · rw [if_pos hf] at h2
      simp at h2
    · rw [if_neg hf] at h2 ⊢
      by_cases hs : (stripFieldsFromQuery q (extractForbiddenFields reason)).removedFields = [] ∧
          (stripFieldsFromQuery q (extractForbiddenFields reason)).removedWildcard = false
      · rw [if_pos hs] at h2
        simp at h2
      · rw [if_neg hs]
        rw [h1]

/-- Claim C7: for every simulation request the delegate is invoked at
most twice for the simulated context, and when the primary attempt and
the single retry both fail (two simulated calls, second delegate
outcome an error), that retry error propagates as the outcome: no third
simulated attempt ever occurs. -/
theorem c7_at_most_one_retry (db : String → Option UserRow) (d : Nat → DelegateOutcome)
    (req : SimRequest) :
    (simulate db d req).simCalls.length ≤ 2 ∧
    (∀ st2 rs2, d 1 = DelegateOutcome.err st2 rs2 →
      (simulate db d req).simCalls.length = 2 →
      (simulate db d req).outcome = Outcome.delegateError st2 rs2) := by
  rcases hbc : buildContext db req with ⟨res, lk⟩
  cases res with
  | error o =>
    rw [simulate_error hbc]
    constructor
    · simp
    · intro st2 rs2 _ h2
      simp at h2
  | ok ctx =>
    rw [simulate_ok hbc]
    constructor
    · rw [afterContext_simCalls]
      simpa using runSim_calls_len d ctx.query
    · intro st2 rs2 h1 h2
      rw [afterContext_simCalls] at h2
      have hlen : (runSimulatedQuery d ctx.query).2.length = 2 := by simpa using h2
      have herr := runSim_retry_err d ctx.query st2 rs2 h1 hlen
      unfold afterContext
      simp only [herr]

/-- Claim C7 (witness): a delegate failing recoverably on the primary
attempt and with a plain 500 on the retry makes exactly two simulated
calls and propagates the retry error. -/
theorem c7_witness :
    (simulate dbEmpty dRetryFail reqRetry).simCalls.length ≤ 2 ∧
    (simulate dbEmpty dRetryFail reqRetry).outcome = Outcome.delegateError 500 "boom" :=
  ⟨(c7_at_most_one_retry dbEmpty dRetryFail reqRetry).1,
   (c7_at_most_one_retry dbEmpty dRetryFail reqRetry).2 500 "boom" rfl (by rfl)⟩

/-- Claim C8: for every request whose mode is user, role or public, every
readByQuery call on the simulated service carries an accountability with
admin false: the engine never escalates privilege for a synthesized
context, whatever the caller's own context. -/
theorem c8_no_escalation (db : String → Option UserRow) (d : Nat → DelegateOutcome)
    (req : SimRequest) (m : String) (hm : req.mode = some m)
    (hmm : m = "user" ∨ m = "role" ∨ m = "public") :
    ∀ p ∈ (simulate db d req).simCalls, p.1.admin = false := by
  intro p hp
  rcases hbc : buildContext db req with ⟨res, lk⟩
  cases res with
  | error o =>
    rw [simulate_error hbc] at hp
    simp at hp
  | ok ctx =>
    rw [simulate_ok hbc] at hp
    rw [afterContext_simCalls] at hp
    have hacc : p.1 = ctx.simAcc := by
      rcases List.mem_map.mp hp with ⟨q, _, hq⟩
      rw [← hq]
    rw [hacc]
    obtain ⟨acc, query, _, _, _, _, _, hmode, _, hdisj⟩ := buildContext_inv hbc
    have hmode2 : ctx.mode = m := by rw [hmode, hm]; rfl
    rcases hdisj with ⟨hreq, _, _, _⟩ | ⟨_, hsim, _, _⟩ | ⟨_, _, hsim, _, _⟩ |
      ⟨_, _, _, hsim, _, _⟩ | ⟨_, _, _, row, _, hsim, _, _⟩
    · exfalso
      rw [hmode2] at hreq
      rcases hmm with rfl | rfl | rfl <;> simp at hreq
    · rw [hsim]; exact buildSimulatedAccountability_admin _ _ _ rfl
    · rw [hsim]; exact buildSimulatedAccountability_admin _ _ _ rfl
    · rw [hsim]; exact buildSimulatedAccountability_admin _ _ _ rfl
    · rw [hsim]; exact buildSimulatedAccountability_admin _ _ _ rfl

/-- Claim C8 (witness): the public-mode synthesized context of an
administrator caller, as passed to the delegate, has admin false. -/
theorem c8_witness :
    ((buildSimulatedAccountability adminAcc publicOverrides, emptyQuery) :
      Accountability × Query).1.admin = false :=
  c8_no_escalation dbEmpty dAllOk reqPublic "public" rfl (Or.inr (Or.inr rfl))
    (buildSimulatedAccountability adminAcc publicOverrides, emptyQuery) (by decide)

/-- Context building only fails with 403 or 400. -/
theorem buildContext_error_inv {db : String → Option UserRow} {req : SimRequest}
    {o : Outcome} {lk : List String}
    (h : buildContext db req = (Except.error o, lk)) :
    o = Outcome.forbidden ∨ o = Outcome.badRequest := by
  rcases req with ⟨racc, rmode, rcoll, rq, rinc, ruid, rrid⟩
  cases racc with
  | none =>
    simp only [buildContext] at h
    left
    injection h with h1 h2
    injection h1 with h3
    exact h3.symm
  | some acc =>
    simp only [buildContext] at h
    repeat' split at h
    all_goals simp_all

/-- Claim C5 (counterexample): a request whose body has no mode field is
not rejected: the handler defaults the mode to requester, calls the
delegate, and succeeds. -/
theorem c5_counterexample :
    reqNoMode.mode = none ∧
    (simulate dbEmpty dAllOk reqNoMode).outcome =
      Outcome.success ⟨"requester", "posts", ⟨none, []⟩, [], [], some [], []⟩ ∧
    (simulate dbEmpty dAllOk reqNoMode).simCalls ≠ [] := by
  refine ⟨rfl, rfl, by decide⟩

/-- Claim C5 (amended): for an administrator caller, a request whose mode
field is present but not one of requester, user, role, public is
rejected with 400 before any delegate call, with no retry, no partial
result and no directory lookup; a missing mode field is not rejected but
behaves exactly as mode requester. -/
theorem c5_amended (db : String → Option UserRow) (d : Nat → DelegateOutcome)
    (req : SimRequest) (acc : Accountability) (m : String) :
    (req.accountability = some acc → acc.admin = true → req.mode = some m →
      ¬ (m = "requester" ∨ m = "user" ∨ m = "role" ∨ m = "public") →
      simulate db d req = ⟨Outcome.badRequest, [], [], []⟩) ∧
    (req.mode = none → simulate db d req = simulate db d { req with mode := some "requester" }) := by
  constructor
  · intro hacc hadm hm hmv
    have hbc : buildContext db req = (Except.error Outcome.badRequest, []) := by
      rcases req with ⟨racc, rmode, rcoll, rq, rinc, ruid, rrid⟩
      dsimp only at hacc hm
      subst hacc
      subst hm
      simp only [buildContext]
      rw [if_neg (by simp [hadm])]
      by_cases htc : truthyStr rcoll = false
      · rw [if_pos htc]
      · rw [if_neg htc]
        have hcond : ¬ ((some m : Option String).getD "requester" = "requester" ∨
            (some m : Option String).getD "requester" = "user" ∨
            (some m : Option String).getD "requester" = "role" ∨
            (some m : Option String).getD "requester" = "public") := by
          simpa using hmv
        rw [if_pos hcond]
    exact simulate_error hbc
  · intro hm
    rcases req with ⟨racc, rmode, rcoll, rq, rinc, ruid, rrid⟩
    dsimp only at hm
    subst hm
    rfl

/-- Claim C5 (witness): an administrator request with mode "bogus" is
rejected with 400 and no delegate call. -/
theorem c5_witness :
    simulate dbEmpty dAllOk reqBadMode = ⟨Outcome.badRequest, [], [], []⟩ :=
  (c5_amended dbEmpty dAllOk reqBadMode adminAcc "bogus").1 rfl rfl rfl (by decide)

/-- A successful run echoes the context query and appends the recovery
warnings of the simulated attempt to the context warnings. -/
theorem afterContext_success_inv {d : Nat → DelegateOutcome} {ctx : ReadyCtx}
    {lk : List String} {resp : SimResponse}
    (h : (afterContext d ctx lk).outcome = Outcome.success resp) :
    resp.query = ctx.query ∧
    ∃ items ws2, (runSimulatedQuery d ctx.query).1 = Except.ok (items, ws2) ∧
      resp.warnings = ctx.warnings ++ ws2 := by
  cases hrs : (runSimulatedQuery d ctx.query).1 with
  | error e =>
    simp only [afterContext, hrs] at h
    exact absurd h (by simp)
  | ok pr =>
    rcases pr with ⟨items, ws2⟩
    simp only [afterContext, hrs] at h
    split at h
    · cases hd : d (runSimulatedQuery d ctx.query).2.length with
      | err st rs =>
        rw [hd] at h
        simp at h
      | ok reqItems =>
        rw [hd] at h
        simp only [Outcome.success.injEq] at h
        subst h
        exact ⟨rfl, items, ws2, rfl, rfl⟩
    · simp only [Outcome.success.injEq] at h
      subst h
      exact ⟨rfl, items, ws2, rfl, rfl⟩

/-- Claim C1 (counterexample): a request whose primary attempt fails
recoverably (forbidden field secret) and whose retry with the narrowed
query succeeds returns a success whose query field is the original
request query with both fields, not the narrowed query actually used on
the final attempt. -/
theorem c1_counterexample :
    (simulate dbEmpty dRetryOk reqRetry).outcome =
      Outcome.success ⟨"requester", "posts", qTitleSecret, [fieldsWarning ["secret"]],
        [], none, []⟩ ∧
    (simulate dbEmpty dRetryOk reqRetry).simCalls =
      [(adminAcc, qTitleSecret), (adminAcc, ⟨some ["title"], [("limit", JVal.jnum 1)]⟩)] ∧
    qTitleSecret ≠ ⟨some ["title"], [("limit", JVal.jnum 1)]⟩ := by
  refine ⟨rfl, rfl, by decide⟩

/-- Claim C1 (amended): every success response echoes as its query field
the parsed original request query, also when the retry path with a
narrowed query was taken; the narrowed query is used only for the retry
delegate call and never appears in the response. -/
theorem c1_amended (db : String → Option UserRow) (d : Nat → DelegateOutcome)
    (req : SimRequest) (resp : SimResponse) (q : Query)
    (houtcome : (simulate db d req).outcome = Outcome.success resp)
    (hq : parseQueryInput req.queryInput = some q) :
    resp.query = q := by
  rcases hbc : buildContext db req with ⟨res, lk⟩
  cases res with
  | error o =>
    rw [simulate_error hbc] at houtcome
    rcases buildContext_error_inv hbc with rfl | rfl <;> simp at houtcome
  | ok ctx =>
    rw [simulate_ok hbc] at houtcome
    obtain ⟨acc, query, _, _, hpq, hcq, _, _, _, _⟩ := buildContext_inv hbc
    have hqq : query = q := by
      rw [hpq] at hq
      exact Option.some.inj hq
    have h1 := (afterContext_success_inv houtcome).1
    rw [h1, hcq, hqq]

/-- Claim C1 (witness): a successful public-mode run with the empty query
echoes that query. -/
theorem c1_witness :
    (simulate dbEmpty dAllOk reqPublic).outcome =
      Outcome.success ⟨"public", "posts", ⟨none, []⟩, [], [], none, []⟩ ∧
    parseQueryInput reqPublic.queryInput = some ⟨none, []⟩ ∧
    (⟨"public", "posts", ⟨none, []⟩, [], [], none, []⟩ : SimResponse).query = ⟨none, []⟩ :=
  ⟨rfl, rfl, c1_amended dbEmpty dAllOk reqPublic _ _ rfl rfl⟩

/-- The run records its directory lookups verbatim from the
context-building phase. -/
theorem simulate_dbLookups (db : String → Option UserRow) (d : Nat → DelegateOutcome)
    (req : SimRequest) :
    (simulate db d req).dbLookups = (buildContext db req).2 := by
  rcases hbc : buildContext db req with ⟨res, lk⟩
  cases res with
  | error o => rw [simulate_error hbc]
  | ok ctx =>
    rw [simulate_ok hbc]
    cases hrs : (runSimulatedQuery d ctx.query).1 with
    | error e => simp only [afterContext, hrs]
    | ok pr =>
      rcases pr with ⟨items, ws⟩
      simp only [afterContext, hrs]
      split
      · cases d (runSimulatedQuery d ctx.query).2.length <;> rfl
      · rfl

/-- On a successful simulated attempt the warnings are empty (no retry)
or exactly the retry warnings of a strip result. -/
theorem runSim_ok_warnings (d : Nat → DelegateOutcome) (q : Query) (items : List Row)
    (ws : List String) (h : (runSimulatedQuery d q).1 = Except.ok (items, ws)) :
    ws = [] ∨ ∃ rr, ws = retryWarnings rr := by
  unfold runSimulatedQuery at h
  cases hd0 : d 0 with
  | ok its =>
    simp only [hd0, Except.ok.injEq, Prod.mk.injEq] at h
    left
    exact h.2.symm
  | err st reason =>
    simp only [hd0] at h
    by_cases hf : extractForbiddenFields reason = []
    · rw [if_pos hf] at h
      exact absurd h (by simp)
    · rw [if_neg hf] at h
      by_cases hs : (stripFieldsFromQuery q (extractForbiddenFields reason)).removedFields = [] ∧
          (stripFieldsFromQuery q (extractForbiddenFields reason)).removedWildcard = false
      · rw [if_pos hs] at h
        exact absurd h (by simp)
      · rw [if_neg hs] at h
        cases hd1 : d 1 with
        | ok its2 =>
          simp only [hd1, Except.ok.injEq, Prod.mk.injEq] at h
          right
          exact ⟨stripFieldsFromQuery q (extractForbiddenFields reason), h.2.symm⟩
        | err st2 rs2 =>
          simp only [hd1] at h
          exact absurd h (by simp)

/-- The user-status warning starts with the letter U. -/
theorem statusWarning_head (s : String) : (statusWarning s).data.head? = some 'U' := rfl

/-- The wildcard retry warning starts with the letter S. -/
theorem wildcardWarning_head : wildcardWarning.data.head? = some 'S' := rfl

/-- The removed-fields retry warning starts with the letter S. -/
theorem fieldsWarning_head (l : List String) : (fieldsWarning l).data.head? = some 'S' := rfl

theorem statusWarning_ne_wildcard (s : String) : statusWarning s ≠ wildcardWarning := by
  intro h
  have h2 : (statusWarning s).data.head? = wildcardWarning.data.head? := by rw [h]
  rw [statusWarning_head, wildcardWarning_head] at h2
  exact absurd h2 (by decide)

theorem statusWarning_ne_fields (s : String) (l : List String) :
    statusWarning s ≠ fieldsWarning l := by
  intro h
  have h2 : (statusWarning s).data.head? = (fieldsWarning l).data.head? := by rw [h]
  rw [statusWarning_head, fieldsWarning_head] at h2
  exact absurd h2 (by decide)

/-- The user-status warning is never one of the retry warnings. -/
theorem statusWarning_not_mem_retry (s : String) (rr : StripResult) :
    statusWarning s ∉ retryWarnings rr := by
  intro h
  unfold retryWarnings at h
  rcases List.mem_append.mp h with h1 | h1
  · by_cases hw : rr.removedWildcard = true
    · rw [if_pos hw] at h1
      exact statusWarning_ne_wildcard s (List.mem_singleton.mp h1)
    · rw [if_neg hw] at h1
      simp at h1
  · by_cases hf : rr.removedFields = []
    · rw [if_pos hf] at h1
      simp at h1
    · rw [if_neg hf] at h1
      exact statusWarning_ne_fields s _ (List.mem_singleton.mp h1)

/-- Closed form of the context-building phase for mode user with a
non-empty (truthy) roleId string: no branch consults the user directory
and no branch records a lookup. -/
theorem buildContext_user_closed (db : String → Option UserRow) (req : SimRequest)
    (uid r : String) (hm : req.mode = some "user") (hu : req.userId = some uid)
    (hr : req.roleId = some r) (hrne : r ≠ "") :
    buildContext db req =
      (match req.accountability with
       | none => (Except.error Outcome.forbidden, [])
       | some acc =>
         if acc.admin = false then (Except.error Outcome.forbidden, [])
         else if truthyStr req.collection = false then (Except.error Outcome.badRequest, [])
         else
           match parseQueryInput req.queryInput with
           | none => (Except.error Outcome.badRequest, [])
           | some query =>
             if truthyStr req.userId = false then (Except.error Outcome.badRequest, [])
             else
               (Except.ok ⟨"user", req.collection.getD "", query, req.includeRequester.getD true,
                 acc,
                 buildSimulatedAccountability acc
                   ⟨some req.userId, some req.roleId, some false, some true⟩,
                 []⟩, [])) := by
  rcases req with ⟨racc, rmode, rcoll, rq, rinc, ruid, rrid⟩
  dsimp only at hm hu hr ⊢
  subst hm
  subst hu
  subst hr
  cases racc with
  | none => rfl
  | some acc =>
    simp only [buildContext, Option.getD_some]
    have ht : truthyStr (some r) = true := by simp [truthyStr, hrne]
    by_cases hadm : acc.admin = false <;>
      by_cases htc : truthyStr rcoll = false <;>
        cases hpq : parseQueryInput rq <;>
          by_cases htu : truthyStr (some uid) = false <;>
            simp [hadm, htc, htu, ht]

/-- Claim C10 (counterexample): a mode-user request that supplies the
roleId "" (a string, but falsy) does consult the identity directory: the
lookup of the supplied userId is recorded. -/
theorem c10_counterexample :
    reqUserEmptyRole.roleId = some "" ∧
    (simulate dbU1 dAllOk reqUserEmptyRole).dbLookups = ["u1"] := ⟨rfl, rfl⟩

/-- Claim C10 (amended): for every mode-user request supplying a
non-empty string roleId, the identity directory is never consulted (no
lookup is recorded and the run does not depend on the directory at all,
so a nonexistent userId is not rejected), every simulated delegate call
carries the supplied roleId as the simulated role as-is, and the
non-active-status warning can never appear in a success response. -/
theorem c10_amended (db : String → Option UserRow) (d : Nat → DelegateOutcome)
    (req : SimRequest) (uid r : String)
    (hm : req.mode = some "user") (hu : req.userId = some uid) (hr : req.roleId = some r)
    (hrne : r ≠ "") :
    (simulate db d req).dbLookups = [] ∧
    simulate db d req = simulate dbEmpty d req ∧
    (∀ p ∈ (simulate db d req).simCalls, p.1.role = some r) ∧
    (∀ resp, (simulate db d req).outcome = Outcome.success resp →
      ∀ s, statusWarning s ∉ resp.warnings) := by
  have hdb : buildContext db req = buildContext dbEmpty req := by
    rw [buildContext_user_closed db req uid r hm hu hr hrne,
        buildContext_user_closed dbEmpty req uid r hm hu hr hrne]
  have hlk : (buildContext db req).2 = [] := by
    rw [buildContext_user_closed db req uid r hm hu hr hrne]
    cases hacc : req.accountability with
    | none => rfl
    | some acc =>
      dsimp only
      repeat' split
      all_goals rfl
  refine ⟨?_, ?_, ?_, ?_⟩
  · rw [simulate_dbLookups]
    exact hlk
  · unfold simulate
    rw [hdb]
  · intro p hp
    rcases hbc : buildContext db req with ⟨res, lk⟩
    cases res with
    | error o =>
      rw [simulate_error hbc] at hp
      simp at hp
    | ok ctx =>
      rw [simulate_ok hbc] at hp
      rw [afterContext_simCalls] at hp
      have haccp : p.1 = ctx.simAcc := by
        rcases List.mem_map.mp hp with ⟨q2, _, hq2⟩
        rw [← hq2]
      rw [haccp]
      obtain ⟨acc, query, _, _, _, _, _, hmode, _, hdisj⟩ := buildContext_inv hbc
      have hmode2 : ctx.mode = "user" := by rw [hmode, hm]; rfl
      have htr : truthyStr req.roleId = true := by simp [hr, truthyStr, hrne]
      rcases hdisj with ⟨h1, _, _, _⟩ | ⟨h1, _, _, _⟩ | ⟨h1, _, _, _, _⟩ |
        ⟨_, _, _, hsim, _, _⟩ | ⟨_, _, hfalse, _⟩
      · rw [hmode2] at h1
        simp at h1
      · rw [hmode2] at h1
        simp at h1
      · rw [hmode2] at h1
        simp at h1
      · rw [hsim]
        rw [buildSimulatedAccountability_role _ _ _ rfl]
        exact hr
      · rw [htr] at hfalse
        simp at hfalse
  · intro resp hout s
    rcases hbc : buildContext db req with ⟨res, lk⟩
    cases res with
    | error o =>
      rw [simulate_error hbc] at hout
      rcases buildContext_error_inv hbc with rfl | rfl <;> simp at hout
    | ok ctx =>
      rw [simulate_ok hbc] at hout
      obtain ⟨hq, items, ws2, hok, hw⟩ := afterContext_success_inv hout
      obtain ⟨acc, query, _, _, _, _, _, hmode, _, hdisj⟩ := buildContext_inv hbc
      have hmode2 : ctx.mode = "user" := by rw [hmode, hm]; rfl
      have htr : truthyStr req.roleId = true := by simp [hr, truthyStr, hrne]
      have hcw : ctx.warnings = [] := by
        rcases hdisj with ⟨h1, _, _, _⟩ | ⟨h1, _, _, _⟩ | ⟨h1, _, _, _, _⟩ |
          ⟨_, _, _, _, hws, _⟩ | ⟨_, _, hfalse, _⟩
        · rw [hmode2] at h1
          simp at h1
        · rw [hmode2] at h1
          simp at h1
        · rw [hmode2] at h1
          simp at h1
        · exact hws
        · rw [htr] at hfalse
          simp at hfalse
      rw [hw, hcw]
      simp only [List.nil_append]
      rcases runSim_ok_warnings d ctx.query items ws2 hok with rfl | ⟨rr, rfl⟩
      · simp
      · exact statusWarning_not_mem_retry s rr

/-- Claim C10 (witness): a mode-user request with the non-empty roleId
"r9" records no lookup and runs identically against the empty directory. -/
theorem c10_witness :
    (simulate dbU1 dAllOk reqUserExplicitRole).dbLookups = [] ∧
    simulate dbU1 dAllOk reqUserExplicitRole = simulate dbEmpty dAllOk reqUserExplicitRole :=
  ⟨(c10_amended dbU1 dAllOk reqUserExplicitRole "u1" "r9" rfl rfl rfl (by decide)).1,
   (c10_amended dbU1 dAllOk reqUserExplicitRole "u1" "r9" rfl rfl rfl (by decide)).2.1⟩

end Sim
